import Mathlib

/-!
# stockprice_exporter: a shallow embedding of `main.go`

The Go program is embedded as pure Lean functions.

* Go `string` is Lean `String`; a Go `error` is represented by the text of its
  `Error()` method.
* `float64` values are an abstract type `F` (only its zero value is used by the
  program); `strconv.ParseFloat` is a parameter of type
  `String → F × Option GoError`, the Go result pair `(float64, error)`.
* `log.Fatal` and a runtime panic end the process; they are explicit results of
  the `Exec` type.
* The mutable gauges and the metric channel are threaded through as a `World`.
* `http.Get` and the `bufio.Scanner` over the response body are inputs of the
  scrape (`HttpGet`, a list of `ScanStep`).
-/

namespace StockpriceExporter

/-! ## Go runtime and library stand-ins -/

/-- A Go `error`, represented by the string its `Error()` method returns. -/
abbrev GoError := String

/-- Result of running Go code that may end the process. -/
inductive Exec (α : Type) where
  /-- the code returned normally with a value -/
  | ret (a : α)
  /-- the code called `log.Fatal msg`: the message is logged and the process exits with status 1 -/
  | fatal (msg : GoError)
  /-- the code hit the runtime panic `index out of range [index] with length len` -/
  | panic (index len : Nat)
deriving DecidableEq, Repr

/-- Sequencing of Go statements: a fatal exit or panic skips the rest. -/
def Exec.bind {α β : Type} : Exec α → (α → Exec β) → Exec β
  | .ret a, f => f a
  | .fatal msg, _ => .fatal msg
  | .panic i n, _ => .panic i n

instance : Monad Exec where
  pure := Exec.ret
  bind := Exec.bind

/-- Go `log.Fatal(msg)`: never returns to the caller. -/
def log_Fatal (msg : GoError) : Exec Unit := .fatal msg

/-- Go slice indexing `xs[i]`, which panics when `i` is out of range. -/
def index (xs : List String) (i : Nat) : Exec String :=
  match xs[i]? with
  | some x => .ret x
  | none => .panic i xs.length

/-- Splitting a character sequence at every occurrence of `sep`; the result is never empty. -/
def splitChars (sep : Char) : List Char → List (List Char)
  | [] => [[]]
  | c :: cs =>
    if c = sep then [] :: splitChars sep cs
    else
      match splitChars sep cs with
      | [] => [[c]]
      | f :: fs => (c :: f) :: fs

/-- Go `strings.Split(s, sep)` for a one-character separator. -/
def strings_Split (s : String) (sep : Char) : List String :=
  (splitChars sep s.toList).map String.mk

/-- Go `strings.HasPrefix(s, p)`. -/
def strings_HasPrefix (s p : String) : Bool :=
  p.toList.isPrefixOf s.toList

/-! ## Data model (`main.go`, lines 14-54) -/

/-- The constant `namespace` of `main.go`. -/
def metricNamespace : String := "stockprice_exporter"

/-- Go `CsvRecord`; the field `open` is spelled `open_` here. -/
structure CsvRecord (F : Type) where
  date : String
  close : F
  open_ : F
  high : F
  low : F
  volume : F
deriving DecidableEq, Repr

/-- The Go zero value `CsvRecord{}`. -/
def CsvRecord.zero {F : Type} [Zero F] : CsvRecord F :=
  { date := "", close := 0, open_ := 0, high := 0, low := 0, volume := 0 }

/-! ## Prometheus client stand-ins -/

/-- A metric identity (`*prometheus.Desc`): fully qualified name and help text. -/
structure Desc where
  fqName : String
  help : String
deriving DecidableEq, Repr

/-- Go `prometheus.GaugeOpts`, with the fields the program sets or leaves empty. -/
structure GaugeOpts where
  Namespace : String
  Subsystem : String := ""
  Name : String
  Help : String
deriving DecidableEq, Repr

/-- Go `prometheus.BuildFQName`: the non-empty parts joined by an underscore. -/
def BuildFQName (ns subsystem name : String) : String :=
  if name = "" then ""
  else if ns ≠ "" ∧ subsystem ≠ "" then ns ++ "_" ++ subsystem ++ "_" ++ name
  else if ns ≠ "" then ns ++ "_" ++ name
  else if subsystem ≠ "" then subsystem ++ "_" ++ name
  else name

/-- A `prometheus.Gauge`: its identity and its current value. -/
structure Gauge (F : Type) where
  desc : Desc
  val : F
deriving DecidableEq, Repr

/-- A sample sent on the metric channel: the identity and the value read from the gauge. -/
structure Metric (F : Type) where
  desc : Desc
  value : F
deriving DecidableEq, Repr

/-- Go `prometheus.NewGauge`: the value starts at zero. -/
def NewGauge {F : Type} [Zero F] (opts : GaugeOpts) : Gauge F :=
  { desc := ⟨BuildFQName opts.Namespace opts.Subsystem opts.Name, opts.Help⟩, val := 0 }

/-- Go `Gauge.Set`. -/
def Gauge.Set {F : Type} (g : Gauge F) (v : F) : Gauge F := { g with val := v }

/-- Go `Gauge.Collect(ch)`: sends the gauge on the metric channel. -/
def Gauge.Collect {F : Type} (g : Gauge F) (ch : List (Metric F)) : List (Metric F) :=
  ch ++ [⟨g.desc, g.val⟩]

/-- Go `Gauge.Describe(ch)`: sends the identity on the descriptor channel. -/
def Gauge.Describe {F : Type} (g : Gauge F) (ch : List Desc) : List Desc :=
  ch ++ [g.desc]

/-- Go `Exporter`; the field `open` is spelled `open_` here. -/
structure Exporter (F : Type) where
  close : Gauge F
  open_ : Gauge F
  high : Gauge F
  low : Gauge F
  volume : Gauge F
deriving DecidableEq, Repr

/-- Go `newExporter`. -/
def newExporter {F : Type} [Zero F] : Exporter F :=
  { close := NewGauge { Namespace := metricNamespace, Name := "close", Help := "close" }
    open_ := NewGauge { Namespace := metricNamespace, Name := "open", Help := "open" }
    high := NewGauge { Namespace := metricNamespace, Name := "high", Help := "high" }
    low := NewGauge { Namespace := metricNamespace, Name := "low", Help := "low" }
    volume := NewGauge { Namespace := metricNamespace, Name := "volume", Help := "volume" } }

/-- Go `Exporter.Describe` (lines 86-88). -/
def Exporter.Describe {F : Type} (e : Exporter F) (ch : List Desc) : List Desc :=
  e.close.Describe ch

/-! ## `parseCsv` (`main.go`, lines 144-183) -/

/-- Go `parseCsv`. The `return csv_record, err` statements that follow
`log.Fatal` are kept; they are never reached because `log.Fatal` exits. -/
def parseCsv {F : Type} [Zero F] (ParseFloat : String → F × Option GoError)
    (line : String) : Exec (CsvRecord F × Option GoError) := do
  let line_array := strings_Split line ','
  let csv_record : CsvRecord F := CsvRecord.zero
  let csv_record := { csv_record with date := (← index line_array 0) }
  let (v, err) := ParseFloat (← index line_array 1)
  let csv_record := { csv_record with close := v }
  if let some e := err then
    log_Fatal e
    return (csv_record, err)
  let (v, err) := ParseFloat (← index line_array 2)
  let csv_record := { csv_record with high := v }
  if let some e := err then
    log_Fatal e
    return (csv_record, err)
  let (v, err) := ParseFloat (← index line_array 3)
  let csv_record := { csv_record with low := v }
  if let some e := err then
    log_Fatal e
    return (csv_record, err)
  let (v, err) := ParseFloat (← index line_array 4)
  let csv_record := { csv_record with open_ := v }
  if let some e := err then
    log_Fatal e
    return (csv_record, err)
  let (v, err) := ParseFloat (← index line_array 5)
  let csv_record := { csv_record with volume := v }
  if let some e := err then
    log_Fatal e
    return (csv_record, err)
  return (csv_record, none)

/-! ## The scrape (`main.go`, lines 90-142) -/

/-- One successful `sc.Scan()`: the text of the line (`sc.Text()`) and what
`sc.Err()` reports once it has been delivered. A list of steps holds the lines
delivered until `sc.Scan()` returns false, be it at the end of the input or on a
scanner error that stops the scan; the code does not read `sc.Err()` after the loop,
so the two cannot be told apart by it. -/
structure ScanStep where
  text : String
  err : Option GoError
deriving DecidableEq, Repr

/-- The scanner over a body that is read without error, one step a line. -/
def cleanScan (lines : List String) : List ScanStep :=
  lines.map (fun l => ⟨l, none⟩)

/-- Result of `http.Get`: an error, or a response whose body the scanner walks. -/
inductive HttpGet where
  | failed (err : GoError)
  | response (body : List ScanStep)
deriving DecidableEq, Repr

/-- What a scrape can observe and change: the gauges, the metric channel, and two
ghost fields recording the lines handed to `parseCsv` and the number of lines
obtained from the scanner. -/
structure World (F : Type) where
  e : Exporter F
  ch : List (Metric F)
  parsed : List String
  scanned : Nat
deriving DecidableEq, Repr

/-- A finished scrape: the world when it ended and how it ended. -/
structure Run (F : Type) where
  world : World F
  exit : Exec Unit
deriving DecidableEq, Repr

/-- The scanner loop of `StockPrice` (lines 106-141), `i` being the loop counter. -/
def scanLoop {F : Type} [Zero F] (ParseFloat : String → F × Option GoError) :
    Nat → List ScanStep → World F → Run F
  | _, [], w => ⟨w, .ret ()⟩
  | i, s :: rest, w =>
    let w := { w with scanned := w.scanned + 1 }
    match s.err with
    | some err => ⟨w, .fatal err⟩
    | none =>
      if i < 8 then scanLoop ParseFloat (i + 1) rest w
      else if strings_HasPrefix s.text "TIMEZONE_OFFSET" then scanLoop ParseFloat (i + 1) rest w
      else
        let w := { w with parsed := w.parsed ++ [s.text] }
        match parseCsv ParseFloat s.text with
        | .fatal msg => ⟨w, .fatal msg⟩
        | .panic k n => ⟨w, .panic k n⟩
        | .ret (_, some err) => ⟨w, .fatal err⟩
        | .ret (csv_record, none) =>
          let w := { w with e := { w.e with close := w.e.close.Set csv_record.close } }
          let w := { w with ch := w.e.close.Collect w.ch }
          let w := { w with e := { w.e with open_ := w.e.open_.Set csv_record.open_ } }
          let w := { w with ch := w.e.open_.Collect w.ch }
          let w := { w with e := { w.e with high := w.e.high.Set csv_record.high } }
          let w := { w with ch := w.e.high.Collect w.ch }
          let w := { w with e := { w.e with low := w.e.low.Set csv_record.low } }
          let w := { w with ch := w.e.low.Collect w.ch }
          let w := { w with e := { w.e with volume := w.e.volume.Set csv_record.volume } }
          let w := { w with ch := w.e.volume.Collect w.ch }
          ⟨w, .ret ()⟩

/-- Go `Exporter.StockPrice`; `get` is the outcome of the `http.Get` call. -/
def Exporter.StockPrice {F : Type} [Zero F] (ParseFloat : String → F × Option GoError)
    (get : HttpGet) (e : Exporter F) (ch : List (Metric F)) : Run F :=
  match get with
  | .failed err => ⟨⟨e, ch, [], 0⟩, .fatal err⟩
  | .response body => scanLoop ParseFloat 1 body ⟨e, ch, [], 0⟩

/-- Go `Exporter.Collect`. -/
def Exporter.Collect {F : Type} [Zero F] (ParseFloat : String → F × Option GoError)
    (get : HttpGet) (e : Exporter F) (ch : List (Metric F)) : Run F :=
  e.StockPrice ParseFloat get ch

/-- The gauges after all five have been set from a record. -/
def Exporter.setAll {F : Type} (e : Exporter F) (r : CsvRecord F) : Exporter F :=
  { close := e.close.Set r.close, open_ := e.open_.Set r.open_, high := e.high.Set r.high,
    low := e.low.Set r.low, volume := e.volume.Set r.volume }

/-- The five samples of a record, in the order they are sent. -/
def Exporter.samples {F : Type} (e : Exporter F) (r : CsvRecord F) : List (Metric F) :=
  [⟨e.close.desc, r.close⟩, ⟨e.open_.desc, r.open_⟩, ⟨e.high.desc, r.high⟩,
   ⟨e.low.desc, r.low⟩, ⟨e.volume.desc, r.volume⟩]

/-- How a run of the loop can end, in terms of the world `w` it started from and
the lines `cands` at position 8 or later: no line parsed and a normal return; no
line parsed and a fatal exit; or one line parsed, with the exit that its parse
dictates. -/
def LoopEnd {F : Type} [Zero F] (pf : String → F × Option GoError) (cands : List String)
    (w : World F) (run : Run F) : Prop :=
  (run.exit = .ret () ∧ run.world.e = w.e ∧ run.world.ch = w.ch ∧ run.world.parsed = w.parsed)
  ∨ (∃ msg, run.exit = .fatal msg ∧ run.world.e = w.e ∧ run.world.ch = w.ch ∧
      run.world.parsed = w.parsed)
  ∨ (∃ t, t ∈ cands ∧ strings_HasPrefix t "TIMEZONE_OFFSET" = false ∧
      run.world.parsed = w.parsed ++ [t] ∧
      ((run.world.e = w.e ∧ run.world.ch = w.ch ∧
          ((∃ msg, run.exit = .fatal msg ∧
              (parseCsv pf t = .fatal msg ∨ ∃ r, parseCsv pf t = .ret (r, some msg)))
            ∨ (∃ k n, run.exit = .panic k n ∧ parseCsv pf t = .panic k n)))
        ∨ (∃ r, parseCsv pf t = .ret (r, none) ∧ run.exit = .ret () ∧
            run.world.e = w.e.setAll r ∧ run.world.ch = w.ch ++ w.e.samples r)))

/-! ## An executable decimal parser, used to run the model on concrete lines -/

/-- A decimal literal `±digits / 10 ^ scale`. -/
structure Decimal where
  neg : Bool
  digits : Nat
  scale : Nat
deriving DecidableEq, Repr

instance : Zero Decimal := ⟨⟨false, 0, 0⟩⟩

/-- Reads a run of decimal digits, accumulating their value; `none` on any other character. -/
def readDigits : Nat → List Char → Option Nat
  | acc, [] => some acc
  | acc, c :: cs =>
    if c.isDigit then readDigits (10 * acc + (c.toNat - 48)) cs else none

/-- Reads `digits` or `digits.digits` with at least one digit on each side. -/
def readUnsigned (cs : List Char) : Option (Nat × Nat) :=
  match splitChars '.' cs with
  | [ip] => if ip = [] then none else (readDigits 0 ip).map (fun n => (n, 0))
  | [ip, fp] =>
    if ip = [] ∨ fp = [] then none
    else (readDigits 0 (ip ++ fp)).map (fun n => (n, fp.length))
  | _ => none

/-- The message of the `*strconv.NumError` for a syntax error. -/
def syntaxError (s : String) : GoError :=
  "strconv.ParseFloat: parsing \"" ++ s ++ "\": invalid syntax"

/-- A stand-in for `strconv.ParseFloat(s, 64)` on plain decimal literals (optional
sign, digits, optional fraction), all of which the Go function accepts; every other
string is reported as a syntax error, although Go accepts further spellings
(exponents, hexadecimal, `Inf`, `NaN`). It only instantiates the parser parameter
at concrete lines; the general theorems hold for every parser. -/
def decimalParseFloat (s : String) : Decimal × Option GoError :=
  let (neg, body) :=
    match s.toList with
    | '-' :: cs => (true, cs)
    | '+' :: cs => (false, cs)
    | cs => (false, cs)
  match readUnsigned body with
  | some (n, k) => (⟨neg, n, k⟩, none)
  | none => (0, some (syntaxError s))

/-! ## Facts about the library stand-ins -/

theorem splitChars_ne_nil (sep : Char) (cs : List Char) : splitChars sep cs ≠ [] := by
  cases cs with
  | nil => simp [splitChars]
  | cons c cs =>
    unfold splitChars
    split
    · simp
    · split <;> simp

theorem strings_Split_ne_nil (s : String) (sep : Char) : strings_Split s sep ≠ [] := by
  simp [strings_Split, splitChars_ne_nil]

/-- A list with at least six elements, opened up. -/
theorem exists_six_of_length {α : Type} (xs : List α) (h : 6 ≤ xs.length) :
    ∃ f0 f1 f2 f3 f4 f5 rest, xs = f0 :: f1 :: f2 :: f3 :: f4 :: f5 :: rest := by
  match xs, h with
  | f0 :: f1 :: f2 :: f3 :: f4 :: f5 :: rest, _ => exact ⟨f0, f1, f2, f3, f4, f5, rest, rfl⟩

/-! ## `parseCsv` -/

/-- What `parseCsv` computes once the line is known to have six fields or more. -/
theorem parseCsv_of_fields {F : Type} [Zero F] (pf : String → F × Option GoError)
    (line f0 f1 f2 f3 f4 f5 : String) (rest : List String)
    (h : strings_Split line ',' = f0 :: f1 :: f2 :: f3 :: f4 :: f5 :: rest) :
    parseCsv pf line =
      match (pf f1).2 with
      | some e => .fatal e
      | none =>
      match (pf f2).2 with
      | some e => .fatal e
      | none =>
      match (pf f3).2 with
      | some e => .fatal e
      | none =>
      match (pf f4).2 with
      | some e => .fatal e
      | none =>
      match (pf f5).2 with
      | some e => .fatal e
      | none =>
        .ret (⟨f0, (pf f1).1, (pf f4).1, (pf f2).1, (pf f3).1, (pf f5).1⟩, none) := by
  unfold parseCsv
  simp only [h, index, bind, Exec.bind, pure, log_Fatal, List.getElem?_cons_zero,
    List.getElem?_cons_succ]
  generalize (pf f1).2 = a1
  generalize (pf f2).2 = a2
  generalize (pf f3).2 = a3
  generalize (pf f4).2 = a4
  generalize (pf f5).2 = a5
  cases a1 <;> cases a2 <;> cases a3 <;> cases a4 <;> cases a5 <;> rfl

/-- C1: a line that splits on the comma into at least six fields whose positions
1 to 5 are all accepted by the number parser makes `parseCsv` return a record with
date = field 0 verbatim, close = value of field 1, high = value of field 2,
low = value of field 3, open = value of field 4, volume = value of field 5; a line
with the same first six fields gives the same result, so later fields have no effect. -/
theorem parseCsv_wellFormed {F : Type} [Zero F] (pf : String → F × Option GoError)
    (line : String) (h6 : 6 ≤ (strings_Split line ',').length)
    (hnum : ∀ i, 1 ≤ i → i ≤ 5 → (pf ((strings_Split line ',').getD i "")).2 = none) :
    parseCsv pf line =
      .ret ({ date := (strings_Split line ',').getD 0 ""
              close := (pf ((strings_Split line ',').getD 1 "")).1
              high := (pf ((strings_Split line ',').getD 2 "")).1
              low := (pf ((strings_Split line ',').getD 3 "")).1
              open_ := (pf ((strings_Split line ',').getD 4 "")).1
              volume := (pf ((strings_Split line ',').getD 5 "")).1 }, none)
    ∧ ∀ line2, (strings_Split line2 ',').take 6 = (strings_Split line ',').take 6 →
        parseCsv pf line2 = parseCsv pf line := by
  obtain ⟨f0, f1, f2, f3, f4, f5, rest, hf⟩ := exists_six_of_length _ h6
  have h1 := hnum 1 (by decide) (by decide)
  have h2 := hnum 2 (by decide) (by decide)
  have h3 := hnum 3 (by decide) (by decide)
  have h4 := hnum 4 (by decide) (by decide)
  have h5 := hnum 5 (by decide) (by decide)
  simp only [hf, List.getD_cons_zero, List.getD_cons_succ] at h1 h2 h3 h4 h5 ⊢
  refine ⟨?_, ?_⟩
  · rw [parseCsv_of_fields pf line f0 f1 f2 f3 f4 f5 rest hf]
    simp only [h1, h2, h3, h4, h5]
  · intro line2 htake
    obtain ⟨g0, g1, g2, g3, g4, g5, rest2, hg⟩ :
        ∃ g0 g1 g2 g3 g4 g5 rest2,
          strings_Split line2 ',' = g0 :: g1 :: g2 :: g3 :: g4 :: g5 :: rest2 := by
      apply exists_six_of_length
      have hlen := congrArg List.length htake
      simp only [List.length_take, List.length_cons] at hlen
      omega
    rw [hg] at htake
    simp only [List.take_succ_cons, List.take_zero, List.cons.injEq, and_true] at htake
    obtain ⟨e0, e1, e2, e3, e4, e5⟩ := htake
    subst e0 e1 e2 e3 e4 e5
    rw [parseCsv_of_fields pf line2 _ _ _ _ _ _ rest2 hg,
      parseCsv_of_fields pf line _ _ _ _ _ _ rest hf]

/-- Witness for C1 on the line `d,100.5,101.0,98.5,99.0,12345,extra`. -/
theorem parseCsv_wellFormed_witness :
    6 ≤ (strings_Split "d,100.5,101.0,98.5,99.0,12345,extra" ',').length ∧
    parseCsv decimalParseFloat "d,100.5,101.0,98.5,99.0,12345,extra" =
      .ret ({ date := "d", close := ⟨false, 1005, 1⟩, high := ⟨false, 1010, 1⟩,
              low := ⟨false, 985, 1⟩, open_ := ⟨false, 990, 1⟩,
              volume := ⟨false, 12345, 0⟩ }, none) :=
  ⟨by decide,
   (parseCsv_wellFormed decimalParseFloat "d,100.5,101.0,98.5,99.0,12345,extra" (by decide)
      (by
        intro i h1 h5
        have hi : i = 1 ∨ i = 2 ∨ i = 3 ∨ i = 4 ∨ i = 5 := by omega
        rcases hi with rfl | rfl | rfl | rfl | rfl <;> decide)).1⟩

/-- C2 (behaviour of the code): the empty line has one field; whatever the number
parser, `parseCsv` reads `line_array[1]` without a length check and panics with
index out of range, instead of returning an insufficient-fields error. -/
theorem parseCsv_empty_line_panics {F : Type} [Zero F] (pf : String → F × Option GoError) :
    (strings_Split "" ',').length = 1 ∧ parseCsv pf "" = .panic 1 1 := by
  have hs : strings_Split "" ',' = [""] := by decide
  refine ⟨by decide, ?_⟩
  unfold parseCsv
  simp [hs, index, bind, Exec.bind]

/-- No line with fewer than six fields makes `parseCsv` return: it panics on the
first missing field, or exits on a present field that is not a number. -/
theorem parseCsv_short_never_returns {F : Type} [Zero F] (pf : String → F × Option GoError)
    (line : String) (h : (strings_Split line ',').length < 6) :
    (∃ i n, parseCsv pf line = .panic i n) ∨ (∃ msg, parseCsv pf line = .fatal msg) := by
  have hne := strings_Split_ne_nil line ','
  unfold parseCsv
  match hs : strings_Split line ',', h, hne with
  | [f0], _, _ =>
    left; exact ⟨1, 1, by simp [index, bind, Exec.bind]⟩
  | [f0, f1], _, _ =>
    simp only [index, bind, Exec.bind, pure, log_Fatal, List.getElem?_cons_zero,
      List.getElem?_cons_succ]
    generalize (pf f1).2 = a1
    cases a1 <;> simp
  | [f0, f1, f2], _, _ =>
    simp only [index, bind, Exec.bind, pure, log_Fatal, List.getElem?_cons_zero,
      List.getElem?_cons_succ]
    generalize (pf f1).2 = a1
    generalize (pf f2).2 = a2
    cases a1 <;> cases a2 <;> simp
  | [f0, f1, f2, f3], _, _ =>
    simp only [index, bind, Exec.bind, pure, log_Fatal, List.getElem?_cons_zero,
      List.getElem?_cons_succ]
    generalize (pf f1).2 = a1
    generalize (pf f2).2 = a2
    generalize (pf f3).2 = a3
    cases a1 <;> cases a2 <;> cases a3 <;> simp
  | [f0, f1, f2, f3, f4], _, _ =>
    simp only [index, bind, Exec.bind, pure, log_Fatal, List.getElem?_cons_zero,
      List.getElem?_cons_succ]
    generalize (pf f1).2 = a1
    generalize (pf f2).2 = a2
    generalize (pf f3).2 = a3
    generalize (pf f4).2 = a4
    cases a1 <;> cases a2 <;> cases a3 <;> cases a4 <;> simp

/-- C3 (as stated, refuted): on the six-field line `d,abc,1,2,3,4`, whose field 1
is not a number, `parseCsv` returns no error value to its caller; the process is
ended by `log.Fatal` with the message of the number parser. -/
theorem parseCsv_bad_number_is_fatal :
    6 ≤ (strings_Split "d,abc,1,2,3,4" ',').length ∧
    (decimalParseFloat "abc").2 = some (syntaxError "abc") ∧
    (¬ ∃ r err, parseCsv decimalParseFloat "d,abc,1,2,3,4" = .ret (r, some err)) ∧
    parseCsv decimalParseFloat "d,abc,1,2,3,4" = .fatal (syntaxError "abc") := by
  have h : parseCsv decimalParseFloat "d,abc,1,2,3,4" = .fatal (syntaxError "abc") := by
    decide
  refine ⟨by decide, by decide, ?_, h⟩
  rintro ⟨r, err, hr⟩
  rw [h] at hr
  cases hr

/-- C3 (amended): for a line with at least six fields, `parseCsv` returns a record
exactly when the number parser accepts each of positions 1 to 5; otherwise the
process is ended by `log.Fatal` with the error of the lowest-numbered rejected
position (positions are tried in the order 1, 2, 3, 4, 5); in no case is a record
returned together with an error. -/
theorem parseCsv_six_fields {F : Type} [Zero F] (pf : String → F × Option GoError)
    (line : String) (h6 : 6 ≤ (strings_Split line ',').length) :
    ((∃ r, parseCsv pf line = .ret (r, none)) ↔
        ∀ i, 1 ≤ i → i ≤ 5 → (pf ((strings_Split line ',').getD i "")).2 = none)
    ∧ (∀ k msg, 1 ≤ k → k ≤ 5 →
        (∀ i, 1 ≤ i → i < k → (pf ((strings_Split line ',').getD i "")).2 = none) →
        (pf ((strings_Split line ',').getD k "")).2 = some msg →
        parseCsv pf line = .fatal msg)
    ∧ (∀ r err, parseCsv pf line ≠ .ret (r, some err)) := by
  obtain ⟨f0, f1, f2, f3, f4, f5, rest, hf⟩ := exists_six_of_length _ h6
  rw [parseCsv_of_fields pf line f0 f1 f2 f3 f4 f5 rest hf]
  simp only [hf]
  refine ⟨⟨?_, ?_⟩, ?_, ?_⟩
  · rintro ⟨r, hr⟩ i h1 h5
    have hi : i = 1 ∨ i = 2 ∨ i = 3 ∨ i = 4 ∨ i = 5 := by omega
    revert hr
    generalize e1 : (pf f1).2 = a1
    generalize e2 : (pf f2).2 = a2
    generalize e3 : (pf f3).2 = a3
    generalize e4 : (pf f4).2 = a4
    generalize e5 : (pf f5).2 = a5
    intro hr
    cases a1 <;> cases a2 <;> cases a3 <;> cases a4 <;> cases a5 <;>
      simp only [reduceCtorEq] at hr
    rcases hi with rfl | rfl | rfl | rfl | rfl <;>
      simp only [List.getD_cons_zero, List.getD_cons_succ] <;> assumption
  · intro hall
    have h1 := hall 1 (by decide) (by decide)
    have h2 := hall 2 (by decide) (by decide)
    have h3 := hall 3 (by decide) (by decide)
    have h4 := hall 4 (by decide) (by decide)
    have h5 := hall 5 (by decide) (by decide)
    simp only [List.getD_cons_zero, List.getD_cons_succ] at h1 h2 h3 h4 h5
    simp only [h1, h2, h3, h4, h5]
    exact ⟨_, rfl⟩
  · intro k msg hk1 hk5 hlow hk
    have hi : k = 1 ∨ k = 2 ∨ k = 3 ∨ k = 4 ∨ k = 5 := by omega
    rcases hi with rfl | rfl | rfl | rfl | rfl
    · simp only [List.getD_cons_zero, List.getD_cons_succ] at hk
      simp only [hk]
    · have h1 := hlow 1 (by decide) (by decide)
      simp only [List.getD_cons_zero, List.getD_cons_succ] at hk h1
      simp only [hk, h1]
    · have h1 := hlow 1 (by decide) (by decide)
      have h2 := hlow 2 (by decide) (by decide)
      simp only [List.getD_cons_zero, List.getD_cons_succ] at hk h1 h2
      simp only [hk, h1, h2]
    · have h1 := hlow 1 (by decide) (by decide)
      have h2 := hlow 2 (by decide) (by decide)
      have h3 := hlow 3 (by decide) (by decide)
      simp only [List.getD_cons_zero, List.getD_cons_succ] at hk h1 h2 h3
      simp only [hk, h1, h2, h3]
    · have h1 := hlow 1 (by decide) (by decide)
      have h2 := hlow 2 (by decide) (by decide)
      have h3 := hlow 3 (by decide) (by decide)
      have h4 := hlow 4 (by decide) (by decide)
      simp only [List.getD_cons_zero, List.getD_cons_succ] at hk h1 h2 h3 h4
      simp only [hk, h1, h2, h3, h4]
  · intro r err
    generalize (pf f1).2 = a1
    generalize (pf f2).2 = a2
    generalize (pf f3).2 = a3
    generalize (pf f4).2 = a4
    generalize (pf f5).2 = a5
    cases a1 <;> cases a2 <;> cases a3 <;> cases a4 <;> cases a5 <;> simp

/-- Witness for C3 (amended) on the line `d,1,2,x,y,5`: position 3 is the lowest
rejected one and its error is the one logged. -/
theorem parseCsv_six_fields_witness :
    6 ≤ (strings_Split "d,1,2,x,y,5" ',').length ∧
    parseCsv decimalParseFloat "d,1,2,x,y,5" = .fatal (syntaxError "x") :=
  ⟨by decide,
   (parseCsv_six_fields decimalParseFloat "d,1,2,x,y,5" (by decide)).2.1 3 (syntaxError "x")
      (by decide) (by decide)
      (by
        intro i h1 h3
        have hi : i = 1 ∨ i = 2 := by omega
        rcases hi with rfl | rfl <;> decide)
      (by decide)⟩

/-! ## The scanner loop -/

/-- Lines read without error are skipped while the counter is below 8 and, from 8
on, while they begin with `TIMEZONE_OFFSET`. -/
theorem scanLoop_skip {F : Type} [Zero F] (pf : String → F × Option GoError)
    (pre : List String) :
    ∀ (i : Nat) (rest : List ScanStep) (w : World F),
      (∀ l ∈ pre.drop (8 - i), strings_HasPrefix l "TIMEZONE_OFFSET" = true) →
      scanLoop pf i (cleanScan pre ++ rest) w =
        scanLoop pf (i + pre.length) rest { w with scanned := w.scanned + pre.length } := by
  induction pre with
  | nil => intro i rest w _; simp [cleanScan]
  | cons l pre ih =>
    intro i rest w h
    simp only [cleanScan, List.map_cons, List.cons_append]
    rw [scanLoop]
    have hfold : List.map (fun l => (⟨l, none⟩ : ScanStep)) pre = cleanScan pre := rfl
    by_cases hi : i < 8
    · have hd : 8 - i = (8 - (i + 1)) + 1 := by omega
      rw [hd, List.drop_succ_cons] at h
      simp only [hi, if_true, hfold]
      rw [ih (i + 1) rest _ h]
      simp only [List.length_cons]
      congr 1
      · omega
      · simp only [World.mk.injEq, true_and]; omega
    · have hd : 8 - i = 0 := by omega
      rw [hd, List.drop_zero] at h
      have hl := h l (List.mem_cons_self _ _)
      have h2 : ∀ l ∈ pre.drop (8 - (i + 1)), strings_HasPrefix l "TIMEZONE_OFFSET" = true := by
        intro x hx
        have hd2 : 8 - (i + 1) = 0 := by omega
        rw [hd2, List.drop_zero] at hx
        exact h x (List.mem_cons_of_mem _ hx)
      simp only [hi, if_false, hl, if_true, hfold]
      rw [ih (i + 1) rest _ h2]
      simp only [List.length_cons]
      congr 1
      · omega
      · simp only [World.mk.injEq, true_and]; omega

/-- The loop at a line that is read without error, sits at position 8 or later and
does not begin with `TIMEZONE_OFFSET`: that line is parsed and the loop ends,
whatever follows. -/
theorem scanLoop_target {F : Type} [Zero F] (pf : String → F × Option GoError)
    (i : Nat) (t : String) (post : List ScanStep) (w : World F) (hi : 8 ≤ i)
    (ht : strings_HasPrefix t "TIMEZONE_OFFSET" = false) :
    scanLoop pf i (⟨t, none⟩ :: post) w =
      match parseCsv pf t with
      | .fatal msg => ⟨⟨w.e, w.ch, w.parsed ++ [t], w.scanned + 1⟩, .fatal msg⟩
      | .panic k n => ⟨⟨w.e, w.ch, w.parsed ++ [t], w.scanned + 1⟩, .panic k n⟩
      | .ret (_, some err) => ⟨⟨w.e, w.ch, w.parsed ++ [t], w.scanned + 1⟩, .fatal err⟩
      | .ret (r, none) =>
        ⟨⟨w.e.setAll r, w.ch ++ w.e.samples r, w.parsed ++ [t], w.scanned + 1⟩, .ret ()⟩ := by
  rw [scanLoop]
  have hi2 : ¬ i < 8 := by omega
  simp only [hi2, if_false, ht, Bool.false_eq_true]
  cases hp : parseCsv pf t with
  | fatal msg => rfl
  | panic k n => rfl
  | ret v =>
    obtain ⟨r, err⟩ := v
    cases err with
    | some err => rfl
    | none =>
      simp [Exporter.setAll, Exporter.samples, Gauge.Set, Gauge.Collect]

theorem LoopEnd.mono {F : Type} [Zero F] (pf : String → F × Option GoError)
    (cands cands2 : List String) (w w2 : World F) (run : Run F)
    (h : LoopEnd pf cands w2 run) (he : w2.e = w.e) (hc : w2.ch = w.ch)
    (hp : w2.parsed = w.parsed) (hsub : ∀ x ∈ cands, x ∈ cands2) :
    LoopEnd pf cands2 w run := by
  unfold LoopEnd at h ⊢
  rw [he, hc, hp] at h
  rcases h with h | h | ⟨x, hx, h⟩
  · exact Or.inl h
  · exact Or.inr (Or.inl h)
  · exact Or.inr (Or.inr ⟨x, hsub x hx, h⟩)

theorem scanLoop_cases {F : Type} [Zero F] (pf : String → F × Option GoError)
    (body : List ScanStep) :
    ∀ (i : Nat) (w : World F),
      LoopEnd pf ((body.drop (8 - i)).map ScanStep.text) w (scanLoop pf i body w) := by
  induction body with
  | nil => intro i w; left; simp [scanLoop]
  | cons s rest ih =>
    intro i w
    obtain ⟨t, err⟩ := s
    cases err with
    | some err => right; left; exact ⟨err, by simp [scanLoop]⟩
    | none =>
      by_cases hi : i < 8
      · have heq : scanLoop pf i (⟨t, none⟩ :: rest) w =
            scanLoop pf (i + 1) rest { w with scanned := w.scanned + 1 } := by
          rw [scanLoop]; simp only [hi, if_true]
        rw [heq]
        refine LoopEnd.mono pf _ _ w _ _ (ih (i + 1) _) rfl rfl rfl ?_
        intro x hx
        have hd : 8 - i = (8 - (i + 1)) + 1 := by omega
        rw [hd, List.drop_succ_cons]; exact hx
      · by_cases hpre : strings_HasPrefix t "TIMEZONE_OFFSET" = true
        · have heq : scanLoop pf i (⟨t, none⟩ :: rest) w =
              scanLoop pf (i + 1) rest { w with scanned := w.scanned + 1 } := by
            rw [scanLoop]; simp only [hi, if_false, hpre, if_true]
          rw [heq]
          refine LoopEnd.mono pf _ _ w _ _ (ih (i + 1) _) rfl rfl rfl ?_
          intro x hx
          have hd : 8 - i = 0 := by omega
          have hd2 : 8 - (i + 1) = 0 := by omega
          rw [hd2, List.drop_zero] at hx
          rw [hd, List.drop_zero, List.map_cons]
          exact List.mem_cons_of_mem _ hx
        · have hpre2 : strings_HasPrefix t "TIMEZONE_OFFSET" = false := by
            simpa using hpre
          right; right
          have hd : 8 - i = 0 := by omega
          refine ⟨t, ?_, hpre2, ?_⟩
          · rw [hd, List.drop_zero, List.map_cons]; exact List.mem_cons_self _ _
          · rw [scanLoop_target pf i t rest w (by omega) hpre2]
            cases hp : parseCsv pf t with
            | fatal msg => exact ⟨rfl, Or.inl ⟨rfl, rfl, Or.inl ⟨msg, rfl, Or.inl rfl⟩⟩⟩
            | panic k n => exact ⟨rfl, Or.inl ⟨rfl, rfl, Or.inr ⟨k, n, rfl, rfl⟩⟩⟩
            | ret v =>
              obtain ⟨r, err⟩ := v
              cases err with
              | some err => exact ⟨rfl, Or.inl ⟨rfl, rfl, Or.inl ⟨err, rfl, Or.inr ⟨r, rfl⟩⟩⟩⟩
              | none => exact ⟨rfl, Or.inr ⟨r, rfl, rfl, rfl, rfl⟩⟩

/-! ## `StockPrice`, `Collect` and `Describe` -/

/-- A scrape of a body whose first line at position 8 or later without the
`TIMEZONE_OFFSET` prefix is `target`: the outcome is decided by the parse of that
line alone. -/
theorem StockPrice_target {F : Type} [Zero F] (pf : String → F × Option GoError)
    (e : Exporter F) (ch : List (Metric F)) (pre : List String) (target : String)
    (post : List ScanStep) (h7 : 7 ≤ pre.length)
    (hpre : ∀ l ∈ pre.drop 7, strings_HasPrefix l "TIMEZONE_OFFSET" = true)
    (ht : strings_HasPrefix target "TIMEZONE_OFFSET" = false) :
    e.StockPrice pf (.response (cleanScan (pre ++ [target]) ++ post)) ch =
      match parseCsv pf target with
      | .fatal msg => ⟨⟨e, ch, [target], pre.length + 1⟩, .fatal msg⟩
      | .panic k n => ⟨⟨e, ch, [target], pre.length + 1⟩, .panic k n⟩
      | .ret (_, some err) => ⟨⟨e, ch, [target], pre.length + 1⟩, .fatal err⟩
      | .ret (r, none) =>
        ⟨⟨e.setAll r, ch ++ e.samples r, [target], pre.length + 1⟩, .ret ()⟩ := by
  have hsplit : cleanScan (pre ++ [target]) ++ post =
      cleanScan pre ++ (⟨target, none⟩ :: post) := by
    simp [cleanScan]
  simp only [Exporter.StockPrice]
  rw [hsplit, scanLoop_skip pf pre 1 _ _ hpre,
    scanLoop_target pf (1 + pre.length) target post _ (by omega) ht]
  simp

/-- C4: every scrape hands at most one line to `parseCsv`, and a line handed over
sits at position 8 or later and does not begin with `TIMEZONE_OFFSET` (so lines 1 to
7 and prefixed lines are never parsed). When the body, read without error, has a
first line at position 8 or later without the prefix, exactly that line is handed
over, the scanner is asked for no line after it, and what follows it has no effect
on the scrape. -/
theorem StockPrice_parses_only_target {F : Type} [Zero F]
    (pf : String → F × Option GoError) (e : Exporter F) (ch : List (Metric F)) :
    (∀ body : List ScanStep,
        (e.StockPrice pf (.response body) ch).world.parsed.length ≤ 1 ∧
        ∀ l ∈ (e.StockPrice pf (.response body) ch).world.parsed,
          l ∈ (body.drop 7).map ScanStep.text ∧
          strings_HasPrefix l "TIMEZONE_OFFSET" = false)
    ∧ (∀ (pre : List String) (target : String) (post : List ScanStep),
        7 ≤ pre.length →
        (∀ l ∈ pre.drop 7, strings_HasPrefix l "TIMEZONE_OFFSET" = true) →
        strings_HasPrefix target "TIMEZONE_OFFSET" = false →
        (e.StockPrice pf (.response (cleanScan (pre ++ [target]) ++ post)) ch).world.parsed
            = [target]
        ∧ (e.StockPrice pf (.response (cleanScan (pre ++ [target]) ++ post)) ch).world.scanned
            = pre.length + 1
        ∧ e.StockPrice pf (.response (cleanScan (pre ++ [target]) ++ post)) ch
            = e.StockPrice pf (.response (cleanScan (pre ++ [target]))) ch) := by
  refine ⟨?_, ?_⟩
  · intro body
    have h := scanLoop_cases pf body 1 ⟨e, ch, [], 0⟩
    simp only [Exporter.StockPrice]
    rcases h with ⟨_, _, _, hp⟩ | ⟨_, _, _, _, hp⟩ | ⟨t, htm, htp, hp, _⟩
    · rw [hp]; simp
    · rw [hp]; simp
    · rw [hp]
      refine ⟨by simp, ?_⟩
      intro l hl
      simp only [List.nil_append, List.mem_singleton] at hl
      subst hl
      exact ⟨htm, htp⟩
  · intro pre target post h7 hpre ht
    have h1 := StockPrice_target pf e ch pre target post h7 hpre ht
    have h2 := StockPrice_target pf e ch pre target [] h7 hpre ht
    rw [List.append_nil] at h2
    rw [h1, h2]
    cases parseCsv pf target with
    | fatal msg => exact ⟨rfl, rfl, rfl⟩
    | panic k n => exact ⟨rfl, rfl, rfl⟩
    | ret v =>
      obtain ⟨r, err⟩ := v
      cases err <;> exact ⟨rfl, rfl, rfl⟩

/-- Witness for C4: seven header lines, a `TIMEZONE_OFFSET` line, the record line
and a trailing line that is never looked at. -/
theorem StockPrice_parses_only_target_witness :
    7 ≤ ["1", "2", "3", "4", "5", "6", "7", "TIMEZONE_OFFSET=540"].length ∧
    ((newExporter : Exporter Decimal).StockPrice decimalParseFloat
      (.response (cleanScan (["1", "2", "3", "4", "5", "6", "7", "TIMEZONE_OFFSET=540"]
        ++ ["d,100.5,101.0,98.5,99.0,12345"]) ++ [⟨"junk", none⟩])) []).world.parsed
      = ["d,100.5,101.0,98.5,99.0,12345"] :=
  ⟨by decide,
   ((StockPrice_parses_only_target decimalParseFloat (newExporter : Exporter Decimal) []).2
      ["1", "2", "3", "4", "5", "6", "7", "TIMEZONE_OFFSET=540"]
      "d,100.5,101.0,98.5,99.0,12345" [⟨"junk", none⟩] (by decide)
      (by
        intro l hl
        simp only [List.drop_succ_cons, List.drop_zero, List.mem_singleton] at hl
        subst hl
        decide)
      (by decide)).1⟩

/-- C5 (as stated, refuted): with seven header lines, line 9 beginning with
`TIMEZONE_OFFSET` and a valid record on line 10, a line 8 that is itself a record is
the one parsed and published (close is 1, not 6); and a line 10 that parses as a
record but begins with `TIMEZONE_OFFSET` is skipped, so nothing is published. -/
theorem StockPrice_line8_selected :
    (((newExporter : Exporter Decimal).StockPrice decimalParseFloat
        (.response (cleanScan ["1", "2", "3", "4", "5", "6", "7",
          "d8,1,2,3,4,5", "TIMEZONE_OFFSET=540", "d10,6,7,8,9,10"])) []).world.parsed
        = ["d8,1,2,3,4,5"]
      ∧ ((newExporter : Exporter Decimal).StockPrice decimalParseFloat
        (.response (cleanScan ["1", "2", "3", "4", "5", "6", "7",
          "d8,1,2,3,4,5", "TIMEZONE_OFFSET=540", "d10,6,7,8,9,10"])) []).world.e.close.val
        = ⟨false, 1, 0⟩
      ∧ parseCsv decimalParseFloat "d10,6,7,8,9,10" =
          .ret (⟨"d10", ⟨false, 6, 0⟩, ⟨false, 9, 0⟩, ⟨false, 7, 0⟩, ⟨false, 8, 0⟩,
            ⟨false, 10, 0⟩⟩, none))
    ∧ (parseCsv decimalParseFloat "TIMEZONE_OFFSET,6,7,8,9,10" =
          .ret (⟨"TIMEZONE_OFFSET", ⟨false, 6, 0⟩, ⟨false, 9, 0⟩, ⟨false, 7, 0⟩,
            ⟨false, 8, 0⟩, ⟨false, 10, 0⟩⟩, none)
      ∧ ((newExporter : Exporter Decimal).StockPrice decimalParseFloat
        (.response (cleanScan ["1", "2", "3", "4", "5", "6", "7",
          "TIMEZONE_OFFSET=1", "TIMEZONE_OFFSET=540", "TIMEZONE_OFFSET,6,7,8,9,10"])) [])
        = ⟨⟨newExporter, [], [], 10⟩, .ret ()⟩) := by
  refine ⟨⟨by decide, by decide, by decide⟩, by decide, by decide⟩

/-- C5 (amended): in a 10-line payload, read without error, whose lines 1 to 7 are
arbitrary, whose lines 8 and 9 both begin with `TIMEZONE_OFFSET` and whose line 10
does not begin with it and parses to the record `r`, the scrape parses line 10 only,
sets the five gauges from `r` and sends the five samples of `r`; lines 1 to 9 do not
appear in the result. -/
theorem StockPrice_ten_lines {F : Type} [Zero F] (pf : String → F × Option GoError)
    (e : Exporter F) (ch : List (Metric F)) (header : List String) (l8 l9 l10 : String)
    (r : CsvRecord F) (hh : header.length = 7)
    (h8 : strings_HasPrefix l8 "TIMEZONE_OFFSET" = true)
    (h9 : strings_HasPrefix l9 "TIMEZONE_OFFSET" = true)
    (h10 : strings_HasPrefix l10 "TIMEZONE_OFFSET" = false)
    (hr : parseCsv pf l10 = .ret (r, none)) :
    e.StockPrice pf (.response (cleanScan (header ++ [l8, l9, l10]))) ch =
      ⟨⟨{ close := ⟨e.close.desc, r.close⟩, open_ := ⟨e.open_.desc, r.open_⟩,
          high := ⟨e.high.desc, r.high⟩, low := ⟨e.low.desc, r.low⟩,
          volume := ⟨e.volume.desc, r.volume⟩ },
        ch ++ [⟨e.close.desc, r.close⟩, ⟨e.open_.desc, r.open_⟩, ⟨e.high.desc, r.high⟩,
          ⟨e.low.desc, r.low⟩, ⟨e.volume.desc, r.volume⟩],
        [l10], 10⟩, .ret ()⟩ := by
  have h := StockPrice_target pf e ch (header ++ [l8, l9]) l10 [] (by simp [hh])
    (by
      intro l hl
      rw [List.drop_append_of_le_length (by omega)] at hl
      have hd : header.drop 7 = [] := List.drop_eq_nil_of_le (by omega)
      rw [hd] at hl
      simp only [List.nil_append, List.mem_cons, List.mem_singleton, List.not_mem_nil,
        or_false] at hl
      rcases hl with rfl | rfl
      · exact h8
      · exact h9)
    h10
  rw [List.append_nil, List.append_assoc] at h
  simp only [List.cons_append, List.nil_append] at h
  rw [h, hr]
  simp [Exporter.setAll, Exporter.samples, Gauge.Set, hh]

/-- Witness for C5 (amended). -/
theorem StockPrice_ten_lines_witness :
    ["1", "2", "3", "4", "5", "6", "7"].length = 7 ∧
    ((newExporter : Exporter Decimal).StockPrice decimalParseFloat
      (.response (cleanScan (["1", "2", "3", "4", "5", "6", "7"] ++
        ["TIMEZONE_OFFSET=1", "TIMEZONE_OFFSET=540", "d10,6,7,8,9,10"]))) []).world.parsed
      = ["d10,6,7,8,9,10"] :=
  ⟨by decide,
   congrArg (fun run => run.world.parsed)
    (StockPrice_ten_lines decimalParseFloat (newExporter : Exporter Decimal) []
      ["1", "2", "3", "4", "5", "6", "7"] "TIMEZONE_OFFSET=1" "TIMEZONE_OFFSET=540"
      "d10,6,7,8,9,10"
      ⟨"d10", ⟨false, 6, 0⟩, ⟨false, 9, 0⟩, ⟨false, 7, 0⟩, ⟨false, 8, 0⟩, ⟨false, 10, 0⟩⟩
      (by decide) (by decide) (by decide) (by decide) (by decide))⟩

/-- C6 (as stated, refuted): on an empty body, and on an eight-line body whose line
8 begins with `TIMEZONE_OFFSET`, the scrape returns normally: no failure is
signalled, nothing is parsed, nothing is sent and the gauges keep their values. -/
theorem StockPrice_no_record_is_silent :
    (newExporter : Exporter Decimal).StockPrice decimalParseFloat
        (.response (cleanScan [])) [] = ⟨⟨newExporter, [], [], 0⟩, .ret ()⟩
    ∧ (newExporter : Exporter Decimal).StockPrice decimalParseFloat
        (.response (cleanScan ["1", "2", "3", "4", "5", "6", "7", "TIMEZONE_OFFSET=540"])) []
        = ⟨⟨newExporter, [], [], 8⟩, .ret ()⟩ := by
  refine ⟨by decide, by decide⟩

/-- C6 (amended): for a body, read without error, that has fewer than 8 lines or
whose lines from position 8 on all begin with `TIMEZONE_OFFSET`, `StockPrice` reads
every line and returns normally without handing a line to `parseCsv`, without
changing a gauge and without sending a sample; no failure is reported. -/
theorem StockPrice_no_candidate {F : Type} [Zero F] (pf : String → F × Option GoError)
    (e : Exporter F) (ch : List (Metric F)) (body : List String)
    (h : body.length < 8 ∨ ∀ l ∈ body.drop 7, strings_HasPrefix l "TIMEZONE_OFFSET" = true) :
    e.StockPrice pf (.response (cleanScan body)) ch = ⟨⟨e, ch, [], body.length⟩, .ret ()⟩ := by
  have hall : ∀ l ∈ body.drop 7, strings_HasPrefix l "TIMEZONE_OFFSET" = true := by
    rcases h with h | h
    · intro l hl
      have hd : body.drop 7 = [] := List.drop_eq_nil_of_le (by omega)
      rw [hd] at hl
      cases hl
    · exact h
  have hs := scanLoop_skip pf body 1 [] ⟨e, ch, [], 0⟩ hall
  rw [List.append_nil] at hs
  simp only [Exporter.StockPrice]
  rw [hs, scanLoop]
  simp

/-- Witness for C6 (amended): a body of three lines. -/
theorem StockPrice_no_candidate_witness :
    (["a", "b", "c"].length < 8 ∨
      ∀ l ∈ ["a", "b", "c"].drop 7, strings_HasPrefix l "TIMEZONE_OFFSET" = true) ∧
    (newExporter : Exporter Decimal).StockPrice decimalParseFloat
      (.response (cleanScan ["a", "b", "c"])) [] = ⟨⟨newExporter, [], [], 3⟩, .ret ()⟩ :=
  ⟨Or.inl (by decide),
   StockPrice_no_candidate decimalParseFloat (newExporter : Exporter Decimal) []
    ["a", "b", "c"] (Or.inl (by decide))⟩

/-- C7 (behaviour of the code): `Describe` forwards to the close gauge alone, so in
every exporter state it sends one identity, not five; for the freshly constructed
exporter that identity is `stockprice_exporter_close`. -/
theorem Describe_sends_close_only {F : Type} [Zero F] (e : Exporter F) :
    e.Describe [] = [e.close.desc] ∧ (e.Describe []).length = 1 ∧
    (newExporter : Exporter F).Describe [] = [⟨"stockprice_exporter_close", "close"⟩] := by
  refine ⟨rfl, rfl, ?_⟩
  simp only [Exporter.Describe, Gauge.Describe, newExporter, NewGauge, List.nil_append,
    List.cons.injEq, and_true, Desc.mk.injEq]
  decide

/-- C8: when the first line at position 8 or later without the `TIMEZONE_OFFSET`
prefix parses to the record `r`, `Collect` returns normally, has set the five gauges
to the values of `r`, and has sent exactly five samples, in the order close, open,
high, low, volume, carrying `r.close`, `r.open`, `r.high`, `r.low`, `r.volume`. -/
theorem Collect_publishes_record {F : Type} [Zero F] (pf : String → F × Option GoError)
    (e : Exporter F) (ch : List (Metric F)) (pre : List String) (target : String)
    (post : List ScanStep) (r : CsvRecord F) (h7 : 7 ≤ pre.length)
    (hpre : ∀ l ∈ pre.drop 7, strings_HasPrefix l "TIMEZONE_OFFSET" = true)
    (ht : strings_HasPrefix target "TIMEZONE_OFFSET" = false)
    (hr : parseCsv pf target = .ret (r, none)) :
    (e.Collect pf (.response (cleanScan (pre ++ [target]) ++ post)) ch).exit = .ret ()
    ∧ (e.Collect pf (.response (cleanScan (pre ++ [target]) ++ post)) ch).world.ch =
        ch ++ [⟨e.close.desc, r.close⟩, ⟨e.open_.desc, r.open_⟩, ⟨e.high.desc, r.high⟩,
          ⟨e.low.desc, r.low⟩, ⟨e.volume.desc, r.volume⟩]
    ∧ (e.Collect pf (.response (cleanScan (pre ++ [target]) ++ post)) ch).world.e =
        { close := ⟨e.close.desc, r.close⟩, open_ := ⟨e.open_.desc, r.open_⟩,
          high := ⟨e.high.desc, r.high⟩, low := ⟨e.low.desc, r.low⟩,
          volume := ⟨e.volume.desc, r.volume⟩ } := by
  simp only [Exporter.Collect]
  rw [StockPrice_target pf e ch pre target post h7 hpre ht, hr]
  exact ⟨rfl, rfl, rfl⟩

/-- Witness for C8: close=100.5, open=99.0, high=101.0, low=98.5, volume=12345. -/
theorem Collect_publishes_record_witness :
    parseCsv decimalParseFloat "d,100.5,101.0,98.5,99.0,12345" =
      .ret (⟨"d", ⟨false, 1005, 1⟩, ⟨false, 990, 1⟩, ⟨false, 1010, 1⟩, ⟨false, 985, 1⟩,
        ⟨false, 12345, 0⟩⟩, none)
    ∧ ((newExporter : Exporter Decimal).Collect decimalParseFloat
        (.response (cleanScan (["1", "2", "3", "4", "5", "6", "7"] ++
          ["d,100.5,101.0,98.5,99.0,12345"]) ++ [])) []).world.ch =
        [] ++ [⟨⟨"stockprice_exporter_close", "close"⟩, ⟨false, 1005, 1⟩⟩,
          ⟨⟨"stockprice_exporter_open", "open"⟩, ⟨false, 990, 1⟩⟩,
          ⟨⟨"stockprice_exporter_high", "high"⟩, ⟨false, 1010, 1⟩⟩,
          ⟨⟨"stockprice_exporter_low", "low"⟩, ⟨false, 985, 1⟩⟩,
          ⟨⟨"stockprice_exporter_volume", "volume"⟩, ⟨false, 12345, 0⟩⟩] :=
  ⟨by decide,
   (Collect_publishes_record decimalParseFloat (newExporter : Exporter Decimal) []
      ["1", "2", "3", "4", "5", "6", "7"] "d,100.5,101.0,98.5,99.0,12345" []
      ⟨"d", ⟨false, 1005, 1⟩, ⟨false, 990, 1⟩, ⟨false, 1010, 1⟩, ⟨false, 985, 1⟩,
        ⟨false, 12345, 0⟩⟩
      (by decide) (by intro l hl; cases hl) (by decide) (by decide)).2.1⟩

/-- Every scrape ends in one of the ways listed by `LoopEnd`, started from the
gauges and channel it was given. -/
theorem StockPrice_end {F : Type} [Zero F] (pf : String → F × Option GoError)
    (get : HttpGet) (e : Exporter F) (ch : List (Metric F)) :
    ∃ cands, LoopEnd pf cands ⟨e, ch, [], 0⟩ (e.StockPrice pf get ch) := by
  cases get with
  | failed err => exact ⟨[], Or.inr (Or.inl ⟨err, rfl, rfl, rfl, rfl⟩)⟩
  | response body => exact ⟨_, scanLoop_cases pf body 1 ⟨e, ch, [], 0⟩⟩

/-- C9: a scrape that fails, that is, one that ends in a fatal exit or a panic
(transport error, scanner error, target line not parsed) or that hands no line to
the parser (no record line found), leaves every gauge at the value it had before
the scrape and sends no sample: the gauges at the end of the scrape (normal return
or process exit) equal the gauges at its start. -/
theorem StockPrice_failure_keeps_gauges {F : Type} [Zero F]
    (pf : String → F × Option GoError) (get : HttpGet) (e : Exporter F)
    (ch : List (Metric F))
    (hfail : (e.StockPrice pf get ch).exit ≠ .ret () ∨
      (e.StockPrice pf get ch).world.parsed = []) :
    (e.StockPrice pf get ch).world.e = e ∧ (e.StockPrice pf get ch).world.ch = ch := by
  cases get with
  | failed err => exact ⟨rfl, rfl⟩
  | response body =>
    simp only [Exporter.StockPrice] at hfail ⊢
    rcases scanLoop_cases pf body 1 ⟨e, ch, [], 0⟩ with
      ⟨_, he, hc, _⟩ | ⟨_, _, he, hc, _⟩ | ⟨t, _, _, hp, h⟩
    · exact ⟨he, hc⟩
    · exact ⟨he, hc⟩
    · rcases h with ⟨he, hc, _⟩ | ⟨r, _, hex, _, _⟩
      · exact ⟨he, hc⟩
      · rcases hfail with hf | hf
        · exact absurd hex hf
        · rw [hp] at hf
          simp at hf

/-- Witness for C9: after a record has been published, a scrape whose target line
has a field that is not a number keeps the published gauge values. -/
theorem StockPrice_failure_keeps_gauges_witness :
    (((⟨⟨⟨"c", "c"⟩, ⟨false, 1005, 1⟩⟩, ⟨⟨"o", "o"⟩, ⟨false, 990, 1⟩⟩,
        ⟨⟨"h", "h"⟩, ⟨false, 1010, 1⟩⟩, ⟨⟨"l", "l"⟩, ⟨false, 985, 1⟩⟩,
        ⟨⟨"v", "v"⟩, ⟨false, 12345, 0⟩⟩⟩ : Exporter Decimal).StockPrice decimalParseFloat
        (.response (cleanScan ["1", "2", "3", "4", "5", "6", "7", "d,7,x,1,2,3"])) []).exit
      = .fatal (syntaxError "x"))
    ∧ ((⟨⟨⟨"c", "c"⟩, ⟨false, 1005, 1⟩⟩, ⟨⟨"o", "o"⟩, ⟨false, 990, 1⟩⟩,
        ⟨⟨"h", "h"⟩, ⟨false, 1010, 1⟩⟩, ⟨⟨"l", "l"⟩, ⟨false, 985, 1⟩⟩,
        ⟨⟨"v", "v"⟩, ⟨false, 12345, 0⟩⟩⟩ : Exporter Decimal).StockPrice decimalParseFloat
        (.response (cleanScan ["1", "2", "3", "4", "5", "6", "7", "d,7,x,1,2,3"])) []).world.e
      = ⟨⟨⟨"c", "c"⟩, ⟨false, 1005, 1⟩⟩, ⟨⟨"o", "o"⟩, ⟨false, 990, 1⟩⟩,
        ⟨⟨"h", "h"⟩, ⟨false, 1010, 1⟩⟩, ⟨⟨"l", "l"⟩, ⟨false, 985, 1⟩⟩,
        ⟨⟨"v", "v"⟩, ⟨false, 12345, 0⟩⟩⟩ :=
  ⟨by decide,
   (StockPrice_failure_keeps_gauges decimalParseFloat
      (.response (cleanScan ["1", "2", "3", "4", "5", "6", "7", "d,7,x,1,2,3"]))
      ⟨⟨⟨"c", "c"⟩, ⟨false, 1005, 1⟩⟩, ⟨⟨"o", "o"⟩, ⟨false, 990, 1⟩⟩,
        ⟨⟨"h", "h"⟩, ⟨false, 1010, 1⟩⟩, ⟨⟨"l", "l"⟩, ⟨false, 985, 1⟩⟩,
        ⟨⟨"v", "v"⟩, ⟨false, 12345, 0⟩⟩⟩ [] (Or.inl (by decide))).1⟩

/-- C10 (as stated, refuted): when `http.Get` fails, and when a field of the target
line is not a number, `Collect` ends in the fatal exit of `log.Fatal` and has sent
no sample; when the body has no record line, `Collect` returns without sending a
sample. In none of the three cases are five samples sent. -/
theorem Collect_fatal_on_failure :
    (newExporter : Exporter Decimal).Collect decimalParseFloat
        (.failed "Get: dial tcp: i/o timeout") []
      = ⟨⟨newExporter, [], [], 0⟩, .fatal "Get: dial tcp: i/o timeout"⟩
    ∧ (newExporter : Exporter Decimal).Collect decimalParseFloat
        (.response (cleanScan ["1", "2", "3", "4", "5", "6", "7", "d,7,x,1,2,3"])) []
      = ⟨⟨newExporter, [], ["d,7,x,1,2,3"], 8⟩, .fatal (syntaxError "x")⟩
    ∧ (newExporter : Exporter Decimal).Collect decimalParseFloat
        (.response (cleanScan ["1", "2", "3"])) []
      = ⟨⟨newExporter, [], [], 3⟩, .ret ()⟩ := by
  refine ⟨by decide, by decide, by decide⟩

/-- C10 (amended): `Collect` ends in the fatal exit of `log.Fatal` when `http.Get`
fails, when a line that the scanner delivers before any record line comes with a
scanner error (`sc.Err()` is read only after a successful `sc.Scan()`), and when the
parse of the target line ends in `log.Fatal`; whenever it ends so it has sent no
sample and changed no gauge. A scan that stops before a record line is reached, at
the end of the input or on a scanner error that makes `sc.Scan()` return false,
makes `Collect` return normally with no sample sent. Whenever `Collect` completes
normally it has either parsed no line, sent no sample and changed no gauge, or
parsed one line into a record, set the five gauges from it and sent its five
samples. -/
theorem Collect_outcomes {F : Type} [Zero F] (pf : String → F × Option GoError)
    (get : HttpGet) (e : Exporter F) (ch : List (Metric F)) :
    (∀ err, get = .failed err → e.Collect pf get ch = ⟨⟨e, ch, [], 0⟩, .fatal err⟩)
    ∧ (∀ pre s post err, get = .response (cleanScan pre ++ s :: post) →
        (∀ l ∈ pre.drop 7, strings_HasPrefix l "TIMEZONE_OFFSET" = true) →
        s.err = some err →
        e.Collect pf get ch = ⟨⟨e, ch, [], pre.length + 1⟩, .fatal err⟩)
    ∧ (∀ pre target post msg, get = .response (cleanScan (pre ++ [target]) ++ post) →
        7 ≤ pre.length →
        (∀ l ∈ pre.drop 7, strings_HasPrefix l "TIMEZONE_OFFSET" = true) →
        strings_HasPrefix target "TIMEZONE_OFFSET" = false →
        parseCsv pf target = .fatal msg →
        e.Collect pf get ch = ⟨⟨e, ch, [target], pre.length + 1⟩, .fatal msg⟩)
    ∧ (∀ delivered, get = .response (cleanScan delivered) →
        (∀ l ∈ delivered.drop 7, strings_HasPrefix l "TIMEZONE_OFFSET" = true) →
        e.Collect pf get ch = ⟨⟨e, ch, [], delivered.length⟩, .ret ()⟩)
    ∧ (∀ t msg, (e.Collect pf get ch).world.parsed = [t] → parseCsv pf t = .fatal msg →
        (e.Collect pf get ch).exit = .fatal msg)
    ∧ (∀ msg, (e.Collect pf get ch).exit = .fatal msg →
        (e.Collect pf get ch).world.e = e ∧ (e.Collect pf get ch).world.ch = ch)
    ∧ ((e.Collect pf get ch).exit = .ret () →
        ((e.Collect pf get ch).world.parsed = [] ∧ (e.Collect pf get ch).world.e = e ∧
          (e.Collect pf get ch).world.ch = ch)
        ∨ (∃ t r, (e.Collect pf get ch).world.parsed = [t] ∧
            parseCsv pf t = .ret (r, none) ∧
            (e.Collect pf get ch).world.e = e.setAll r ∧
            (e.Collect pf get ch).world.ch = ch ++ e.samples r)) := by
  simp only [Exporter.Collect]
  obtain ⟨cands, hend⟩ := StockPrice_end pf get e ch
  refine ⟨?_, ?_, ?_, ?_, ?_, ?_, ?_⟩
  · intro err hg
    subst hg
    rfl
  · intro pre s post err hg hpre hs
    subst hg
    obtain ⟨t, serr⟩ := s
    simp only at hs
    subst hs
    simp only [Exporter.StockPrice]
    rw [scanLoop_skip pf pre 1 _ _ hpre, scanLoop]
    simp
  · intro pre target post msg hg h7 hpre ht hparse
    subst hg
    rw [StockPrice_target pf e ch pre target post h7 hpre ht, hparse]
  · intro delivered hg hall
    subst hg
    have hs := scanLoop_skip pf delivered 1 [] ⟨e, ch, [], 0⟩ hall
    rw [List.append_nil] at hs
    simp only [Exporter.StockPrice]
    rw [hs, scanLoop]
    simp
  · intro t msg hp ht
    rcases hend with ⟨_, _, _, hp2⟩ | ⟨_, _, _, _, hp2⟩ | ⟨x, _, _, hp2, h⟩
    · rw [hp2] at hp; cases hp
    · rw [hp2] at hp; cases hp
    · rw [hp2] at hp
      simp only [List.nil_append, List.cons.injEq, and_true] at hp
      subst hp
      rw [ht] at h
      rcases h with ⟨_, _, ⟨m, hex, hm⟩ | ⟨k, n, _, hm⟩⟩ | ⟨r, hm, _⟩
      · rcases hm with hm | ⟨r, hm⟩
        · cases hm; exact hex
        · cases hm
      · cases hm
      · cases hm
  · intro msg hex
    rcases hend with ⟨hex2, _⟩ | ⟨_, _, he, hc, _⟩ | ⟨x, _, _, _, h⟩
    · rw [hex2] at hex; cases hex
    · exact ⟨he, hc⟩
    · rcases h with ⟨he, hc, _⟩ | ⟨r, _, hex2, _⟩
      · exact ⟨he, hc⟩
      · rw [hex2] at hex; cases hex
  · intro hex
    rcases hend with ⟨_, he, hc, hp⟩ | ⟨m, hex2, _⟩ | ⟨x, _, _, hp, h⟩
    · exact Or.inl ⟨hp, he, hc⟩
    · rw [hex2] at hex; cases hex
    · rcases h with ⟨_, _, ⟨m, hex2, _⟩ | ⟨k, n, hex2, _⟩⟩ | ⟨r, hm, _, he, hc⟩
      · rw [hex2] at hex; cases hex
      · rw [hex2] at hex; cases hex
      · exact Or.inr ⟨x, r, hp, hm, he, hc⟩

/-- Witness for C10 (amended), one instance a clause: a failed `http.Get` is a fatal
exit; so is a scanner error on the delivered line 3; so is a target line whose
field 2 is not a number; a scan that stops after three lines returns normally. -/
theorem Collect_outcomes_witness :
    (newExporter : Exporter Decimal).Collect decimalParseFloat
        (.failed "Get: dial tcp: i/o timeout") []
      = ⟨⟨newExporter, [], [], 0⟩, .fatal "Get: dial tcp: i/o timeout"⟩
    ∧ (newExporter : Exporter Decimal).Collect decimalParseFloat
        (.response (cleanScan ["1", "2"] ++ ⟨"3", some "unexpected EOF"⟩ :: [⟨"4", none⟩])) []
      = ⟨⟨newExporter, [], [], ["1", "2"].length + 1⟩, .fatal "unexpected EOF"⟩
    ∧ (parseCsv decimalParseFloat "d,7,x,1,2,3" = .fatal (syntaxError "x")
      ∧ (newExporter : Exporter Decimal).Collect decimalParseFloat
          (.response (cleanScan (["1", "2", "3", "4", "5", "6", "7"] ++ ["d,7,x,1,2,3"])
            ++ [⟨"later", none⟩])) []
        = ⟨⟨newExporter, [], ["d,7,x,1,2,3"], ["1", "2", "3", "4", "5", "6", "7"].length + 1⟩,
            .fatal (syntaxError "x")⟩)
    ∧ (newExporter : Exporter Decimal).Collect decimalParseFloat
        (.response (cleanScan ["1", "2", "3"])) []
      = ⟨⟨newExporter, [], [], ["1", "2", "3"].length⟩, .ret ()⟩ :=
  ⟨(Collect_outcomes decimalParseFloat (.failed "Get: dial tcp: i/o timeout")
      (newExporter : Exporter Decimal) []).1 "Get: dial tcp: i/o timeout" rfl,
   (Collect_outcomes decimalParseFloat
      (.response (cleanScan ["1", "2"] ++ ⟨"3", some "unexpected EOF"⟩ :: [⟨"4", none⟩]))
      (newExporter : Exporter Decimal) []).2.1 ["1", "2"] ⟨"3", some "unexpected EOF"⟩
      [⟨"4", none⟩] "unexpected EOF" rfl (by intro l hl; cases hl) rfl,
   ⟨by decide,
    (Collect_outcomes decimalParseFloat
      (.response (cleanScan (["1", "2", "3", "4", "5", "6", "7"] ++ ["d,7,x,1,2,3"])
        ++ [⟨"later", none⟩]))
      (newExporter : Exporter Decimal) []).2.2.1 ["1", "2", "3", "4", "5", "6", "7"]
      "d,7,x,1,2,3" [⟨"later", none⟩] (syntaxError "x") rfl (by decide)
      (by intro l hl; cases hl) (by decide) (by decide)⟩,
   (Collect_outcomes decimalParseFloat (.response (cleanScan ["1", "2", "3"]))
      (newExporter : Exporter Decimal) []).2.2.2.1 ["1", "2", "3"] rfl
      (by intro l hl; cases hl)⟩

end StockpriceExporter
